import Mathlib

/-!
Verification of the qpath2 geometric masking core against its specification.

The Python source is shallowly embedded: polygons are lists of rational
points, numpy arrays become lists, exceptions become `Except` values, and
the external exact-geometry engine (CGAL, reached through the compiled
`compgeom_` bindings) is represented either by its raw result record
(status code plus output buffers) or by a `GeomKernel` record of the five
operations the spec defines for it.
-/

namespace QP

attribute [local semireducible] Rat.add Rat.mul Rat.sub Rat.inv

/-- A point: an (x, y) pair of coordinates (rationals embed the doubles). -/
abbrev Pt : Type := ℚ × ℚ

/-- A polygon: an ordered sequence of points, one per row of the numpy array. -/
abbrev Poly : Type := List Pt

/-- The distinct failures raised by the core (`qpath2.core.Error` instances
are told apart by their message; `ValueError` and `StopIteration` are
distinct Python exception classes). -/
inductive QErr : Type
  | sizeMismatch
  | nonSimple
  | unbounded
  | unknownErr
  | vendorMismatch
  | levelOutOfBounds
  | negCoords
  | outOfBounds
  | emptyIterator
  | valueError
  deriving DecidableEq

instance {ε α : Type} [DecidableEq ε] [DecidableEq α] : DecidableEq (Except ε α) :=
  fun a b =>
    match a, b with
    | .ok x, .ok y => if h : x = y then .isTrue (by rw [h]) else .isFalse (by simp [h])
    | .error x, .error y => if h : x = y then .isTrue (by rw [h]) else .isFalse (by simp [h])
    | .ok _, .error _ => .isFalse (by simp)
    | .error _, .ok _ => .isFalse (by simp)

/-- Raw result of a call to the external `simple_polygon_intersection_`
binding: the returned status code `n` and the three output buffers
(`rx`, `ry` coordinate lists and `rn` per-component vertex counts). -/
structure KernelIntersect : Type where
  status : Int
  rx : List ℚ
  ry : List ℚ
  rn : List Nat
  deriving DecidableEq

/-- Running sums of a list as computed by `np.cumsum`: `cumsumFrom s l`
carries the sum `s` accumulated so far. -/
def cumsumFrom (s : Nat) : List Nat → List Nat
  | [] => []
  | x :: xs => (s + x) :: cumsumFrom (s + x) xs

/-- Slice `l[i:j]` of a Python list. -/
def slice (l : List ℚ) (i j : Nat) : List ℚ :=
  (l.drop i).take (j - i)

/-- The component split performed when the status reports more than one
intersection component: `e = np.cumsum(rn)`, `b = [0] + e[:-1]`, and each
component is `zip(rx[i:j], ry[i:j])` for `(i, j)` in `zip(b, e)`. -/
def splitComponents (rx ry : List ℚ) (rn : List Nat) : List Poly :=
  let e := cumsumFrom 0 rn
  let b := 0 :: e.dropLast
  (b.zip e).map (fun ij => (slice rx ij.1 ij.2).zip (slice ry ij.1 ij.2))

/-- Embedding of `qpath2.compgeom.simple_polygon_intersection`, as a map
from the raw kernel result to either an error or a list of polygons:
status 0 returns the empty result, -1 and -2 raise the size-mismatch error,
-3 the non-simple error, -4 the unbounded error; a status above 1 splits
the output buffers into that many components, and anything else returns
the zipped buffers as a single component. -/
def simple_polygon_intersection (res : KernelIntersect) : Except QErr (List Poly) :=
  if res.status = 0 then .ok []
  else if res.status = -1 ∨ res.status = -2 then .error .sizeMismatch
  else if res.status = -3 then .error .nonSimple
  else if res.status = -4 then .error .unbounded
  else if 1 < res.status then .ok (splitComponents res.rx res.ry res.rn)
  else .ok [res.rx.zip res.ry]

lemma cumsumFrom_length (s : Nat) (l : List Nat) : (cumsumFrom s l).length = l.length := by
  induction l generalizing s with
  | nil => rfl
  | cons x xs ih => simp [cumsumFrom, ih]

lemma splitComponents_length (rx ry : List ℚ) (rn : List Nat) (h : rn ≠ []) :
    (splitComponents rx ry rn).length = rn.length := by
  unfold splitComponents
  have he : (cumsumFrom 0 rn).length = rn.length := cumsumFrom_length 0 rn
  have hne : cumsumFrom 0 rn ≠ [] := by
    cases rn with
    | nil => exact absurd rfl h
    | cons x xs => simp [cumsumFrom]
  simp only [List.length_map, List.length_zip, List.length_cons,
    List.length_dropLast, he]
  have hpos : 0 < rn.length := List.length_pos.mpr h
  omega

/-- C7: `simple_polygon_intersection` maps the underlying geometry status
code as follows: status 0 yields an empty result (no overlap); status n > 0
yields a list of exactly n intersection components; status -1 or -2 raises
a size-mismatch error; status -3 raises a non-simple-polygon error; status
-4 raises an unbounded-intersection error.  (The hypothesis records the
kernel contract that with n > 1 components the count buffer `rn` holds one
entry per component.) -/
theorem C7_intersection_status (res : KernelIntersect)
    (hk : 1 < res.status → res.rn.length = res.status.toNat) :
    (res.status = 0 → simple_polygon_intersection res = .ok []) ∧
    (0 < res.status →
      ∃ l, simple_polygon_intersection res = .ok l ∧ l.length = res.status.toNat) ∧
    ((res.status = -1 ∨ res.status = -2) →
      simple_polygon_intersection res = .error .sizeMismatch) ∧
    (res.status = -3 → simple_polygon_intersection res = .error .nonSimple) ∧
    (res.status = -4 → simple_polygon_intersection res = .error .unbounded) := by
  refine ⟨?_, ?_, ?_, ?_, ?_⟩
  · intro h0
    simp [simple_polygon_intersection, h0]
  · intro hpos
    by_cases h1 : 1 < res.status
    · refine ⟨splitComponents res.rx res.ry res.rn, ?_, ?_⟩
      · simp only [simple_polygon_intersection]
        rw [if_neg (by omega), if_neg (by omega), if_neg (by omega),
          if_neg (by omega), if_pos h1]
      · have hrn := hk h1
        have hne : res.rn ≠ [] := by
          intro hcon
          rw [hcon] at hrn
          simp at hrn
          omega
        rw [splitComponents_length res.rx res.ry res.rn hne, hrn]
    · have hone : res.status = 1 := by omega
      refine ⟨[res.rx.zip res.ry], ?_, by simp [hone]⟩
      simp only [simple_polygon_intersection]
      rw [if_neg (by omega), if_neg (by omega), if_neg (by omega),
        if_neg (by omega), if_neg h1]
  · intro h12
    simp only [simple_polygon_intersection]
    rw [if_neg (by omega), if_pos h12]
  · intro h3
    simp only [simple_polygon_intersection]
    rw [if_neg (by omega), if_neg (by omega), if_pos h3]
  · intro h4
    simp only [simple_polygon_intersection]
    rw [if_neg (by omega), if_neg (by omega), if_neg (by omega), if_pos h4]

/-- Witness for C7: a concrete kernel result with two components. -/
theorem C7_intersection_status_witness :
    ∃ l, simple_polygon_intersection ⟨2, [0, 1, 5, 6], [0, 1, 5, 6], [2, 2]⟩ = .ok l ∧
      l.length = (2 : Int).toNat :=
  (C7_intersection_status ⟨2, [0, 1, 5, 6], [0, 1, 5, 6], [2, 2]⟩
    (by intro h; rfl)).2.1 (by norm_num)

/-! ### Rasterization (qpath2.masks / skimage.draw.polygon) -/

/-- The cyclic edge list of a vertex sequence: each vertex paired with its
successor, the last wrapping around to the first. -/
def edges : Poly → List (Pt × Pt)
  | [] => []
  | a :: t => (a :: t).zip (t ++ [a])

/-- Modelled from the spec: the crossing test of the external scanline
filler (`skimage.draw.polygon`'s point-in-polygon routine) for a single
edge — the horizontal ray from the query point to the right crosses the
edge iff the point's y lies between the edge's endpoint ys (lower bound
inclusive) and the point's x is left of the edge at that height. -/
def crossesRay (q : Pt) (e : Pt × Pt) : Bool :=
  (decide ((e.1.2 ≤ q.2 ∧ q.2 < e.2.2) ∨ (e.2.2 ≤ q.2 ∧ q.2 < e.1.2))) &&
  decide (q.1 < (e.2.1 - e.1.1) * (q.2 - e.1.2) / (e.2.2 - e.1.2) + e.1.1)

/-- Modelled from the spec: even-odd point-in-polygon classification used
by the external scanline filler — a point is inside iff the rightward ray
crosses an odd number of cyclic edges. -/
def point_in_polygon (P : Poly) (q : Pt) : Bool :=
  (edges P).countP (fun e => crossesRay q e) % 2 = 1

/-- All (row, column) grid positions of a `(height, width)` shape. -/
def gridRC (shape : ℕ × ℕ) : List (ℕ × ℕ) :=
  (List.range shape.1).flatMap (fun r => (List.range shape.2).map (fun c => (r, c)))

/-- Embedding of `qpath2.masks.masked_points`: rasterize the polygonal
region over the grid (the source's re-closing `np.vstack` is a no-op — its
result is never assigned — and the external filler treats the vertex list
cyclically), returning the (x, y) pairs of covered pixels.  The filler is
modelled from the spec as the even-odd crossing fill over the grid. -/
def masked_points (poly_line : Poly) (shape : ℕ × ℕ) : List (ℕ × ℕ) :=
  ((gridRC shape).filter
      (fun rc => point_in_polygon poly_line ((rc.2 : ℚ), (rc.1 : ℚ)))).map
    (fun rc => (rc.2, rc.1))

lemma edges_close (a : Pt) (t : List Pt) :
    edges ((a :: t) ++ [a]) = edges (a :: t) ++ [(a, a)] := by
  show ((a :: t) ++ [a]).zip ((t ++ [a]) ++ [a]) = (a :: t).zip (t ++ [a]) ++ [(a, a)]
  rw [List.zip_append (by simp)]
  rfl

lemma crossesRay_degenerate (q a : Pt) : crossesRay q (a, a) = false := by
  simp only [crossesRay, Bool.and_eq_false_iff, decide_eq_false_iff_not]
  left
  rintro (⟨h1, h2⟩ | ⟨h1, h2⟩) <;> exact absurd (lt_of_le_of_lt h1 h2) (lt_irrefl _)

lemma point_in_polygon_close (a : Pt) (t : List Pt) (q : Pt) :
    point_in_polygon ((a :: t) ++ [a]) q = point_in_polygon (a :: t) q := by
  unfold point_in_polygon
  rw [edges_close, List.countP_append]
  simp [crossesRay_degenerate]

/-- C4: for every polygon vertex list whose first and last vertices differ,
`masked_points` returns the same pixel set when the first vertex is appended
— the intended implicit closing changes nothing, because the underlying
fill already treats the vertex list cyclically. -/
theorem C4_masked_points_closure (P : Poly) (shape : ℕ × ℕ) (hne : P ≠ [])
    (hdiff : P.head? ≠ P.getLast?) :
    masked_points (P ++ [P.headI]) shape = masked_points P shape := by
  obtain ⟨a, t, rfl⟩ : ∃ a t, P = a :: t := by
    cases P with
    | nil => exact absurd rfl hne
    | cons a t => exact ⟨a, t, rfl⟩
  unfold masked_points
  have hcong : ∀ rc ∈ gridRC shape,
      point_in_polygon ((a :: t) ++ [(a :: t).headI]) ((rc.2 : ℚ), (rc.1 : ℚ)) =
        point_in_polygon (a :: t) ((rc.2 : ℚ), (rc.1 : ℚ)) := by
    intro rc _
    exact point_in_polygon_close a t _
  rw [List.filter_congr hcong]

/-- Witness for C4: a concrete open triangle on a 3×3 grid. -/
theorem C4_masked_points_closure_witness :
    masked_points ([((0 : ℚ), (0 : ℚ)), (2, 0), (2, 2)] ++ [((0 : ℚ), (0 : ℚ))]) (3, 3) =
      masked_points [((0 : ℚ), (0 : ℚ)), (2, 0), (2, 2)] (3, 3) :=
  C4_masked_points_closure [(0, 0), (2, 0), (2, 2)] (3, 3) (by decide) (by decide)

/-! ### The exact-geometry kernel interface (qpath2.compgeom wrappers) -/

/-- The external exact-geometry engine behind `qpath2.compgeom_` and the
CGAL `Polygon_2` wrapper, abstracted as the record of the raw calls the
`compgeom` wrappers make: convexity of a vertex list, point classification
(status plus one code per point: 1 inside, 0 boundary, -1 outside),
polygon intersection (raw status and buffers) and region equality (status:
0 distinct regions, positive identical, negative an error). -/
structure GeomKernel : Type where
  isConvex : Poly → Bool
  pointWrt : List Pt → Poly → Int × List Int
  intersect : Poly → Poly → KernelIntersect
  equality : Poly → Poly → Int

/-- Embedding of `qpath2.compgeom.polygon_is_convex` (delegates to CGAL). -/
def polygon_is_convex (K : GeomKernel) (P : Poly) : Bool :=
  K.isConvex P

/-- Embedding of `qpath2.compgeom.point_wrt_polygon`: statuses -1 and -2
raise the size-mismatch error, anything below -2 the unspecific error, and
otherwise the per-point codes are returned. -/
def point_wrt_polygon (K : GeomKernel) (points : List Pt) (Q : Poly) :
    Except QErr (List Int) :=
  let nr := K.pointWrt points Q
  if nr.1 = -1 ∨ nr.1 = -2 then .error .sizeMismatch
  else if nr.1 < -2 then .error .unknownErr
  else .ok nr.2

/-- Embedding of `qpath2.compgeom.polygon_equality`: a non-negative status
means success (true iff nonzero), -1 and -2 raise the size-mismatch error,
any other negative the unknown error. -/
def polygon_equality (K : GeomKernel) (P Q : Poly) : Except QErr Bool :=
  let n := K.equality P Q
  if 0 ≤ n then .ok (n ≠ 0)
  else if n = -1 ∨ n = -2 then .error .sizeMismatch
  else .error .unknownErr

/-- `qpath2.compgeom.simple_polygon_intersection` applied to the kernel's
raw result for the two operand polygons. -/
def simple_polygon_intersectionK (K : GeomKernel) (P Q : Poly) :
    Except QErr (List Poly) :=
  simple_polygon_intersection (K.intersect P Q)

/-- The rectangle-as-polygon built inline in `rect_inside_polygon`:
`np.array([r0, (r0[0], r1[1]), r1, (r1[0], r0[1])])`. -/
def rect_as_poly (r0 r1 : Pt) : Poly :=
  [r0, (r0.1, r1.2), r1, (r1.1, r0.2)]

/-- Embedding of `qpath2.compgeom.rect_inside_polygon`, exactly as the
source computes it: on a convex polygon both corners must classify as
inside; otherwise the polygon--rectangle intersection is taken, an empty
or multi-component result yields false, and the final test is
`polygon_equality(P, r[0])` — the source compares the intersection
against P, the containing polygon. -/
def rect_inside_polygon (K : GeomKernel) (r0 r1 : Pt) (P : Poly) :
    Except QErr Bool :=
  if polygon_is_convex K P then do
    let r ← point_wrt_polygon K [r0, r1] P
    pure (r.all (fun c => decide (c = 1)))
  else do
    let r ← simple_polygon_intersectionK K P (rect_as_poly r0 r1)
    if r.length = 0 ∨ 1 < r.length then pure false
    else polygon_equality K P r.headI

/-- The same function as the spec words it: "the rectangle is inside iff
the intersection is a single polygon and `equals` that polygon to the
rectangle polygon" — i.e. the final equality compares the intersection
component with the rectangle polygon, not with P. -/
def rect_inside_polygon_spec (K : GeomKernel) (r0 r1 : Pt) (P : Poly) :
    Except QErr Bool :=
  if polygon_is_convex K P then do
    let r ← point_wrt_polygon K [r0, r1] P
    pure (r.all (fun c => decide (c = 1)))
  else do
    let r ← simple_polygon_intersectionK K P (rect_as_poly r0 r1)
    if r.length = 0 ∨ 1 < r.length then pure false
    else polygon_equality K (rect_as_poly r0 r1) r.headI

/-- Cross product of the vectors o→a and o→b. -/
def cross2 (o a b : Pt) : ℚ :=
  (a.1 - o.1) * (b.2 - o.2) - (a.2 - o.2) * (b.1 - o.1)

/-- Convexity of a vertex sequence: every cyclically consecutive vertex
triple turns the same way (all cross products share a sign). -/
def convexPoly (P : Poly) : Bool :=
  let n := P.length
  let t := (List.range n).map (fun i =>
    cross2 (P.getD i (0, 0)) (P.getD ((i + 1) % n) (0, 0)) (P.getD ((i + 2) % n) (0, 0)))
  (t.all (fun c => decide (0 ≤ c))) || (t.all (fun c => decide (c ≤ 0)))

/-- The non-convex L-shaped polygon of the C1 scenario. -/
def LShapeC1 : Poly := [(0, 0), (10, 0), (10, 4), (4, 4), (4, 10), (0, 10)]

/-- Modelled from the spec: the exact-geometry kernel (the compiled
`compgeom_` bindings, absent from the sources) on the operands of the C1
scenario.  Convexity and point classification are computed (cross-product
test, even-odd crossing test); intersection follows the spec's contracts —
size mismatch below 3 vertices, and the rectangle with corners (1,1),(3,3)
lies strictly inside the L-shape, so their intersection is the single
component equal to that rectangle; region equality on these operands
coincides with vertex-list equality (the L-shape and the rectangle enclose
different regions, identical lists enclose identical regions). -/
def KC1 : GeomKernel where
  isConvex := convexPoly
  pointWrt := fun pts Q => (0, pts.map (fun p => if point_in_polygon Q p then 1 else -1))
  intersect := fun P Q =>
    if P.length < 3 ∨ Q.length < 3 then ⟨-1, [], [], []⟩
    else if P = LShapeC1 ∧ Q = rect_as_poly (1, 1) (3, 3) then
      ⟨1, [1, 1, 3, 3], [1, 3, 3, 1], [4]⟩
    else ⟨0, [], [], []⟩
  equality := fun P Q => if P = Q then 1 else 0

/-- C1 (refuted): on a rectangle lying strictly inside a non-convex
polygon, the source's `rect_inside_polygon` answers false — it compares
the intersection component against P instead of against the rectangle
polygon, contrary to the claimed algorithm (and to the source's own
comment), which answers true on the same kernel data. -/
theorem C1_rect_inside_bug :
    rect_inside_polygon KC1 (1, 1) (3, 3) LShapeC1 = .ok false ∧
    rect_inside_polygon_spec KC1 (1, 1) (3, 3) LShapeC1 = .ok true :=
  ⟨by decide, by decide⟩

/-! ### Mask application (qpath2.masks.apply_mask) -/

/-- A 2D mask: rows of integer cell values (uint8 in the source). -/
abbrev Mask : Type := List (List ℤ)

/-- A single-channel (2D) pixel buffer. -/
abbrev Image2 : Type := List (List ℤ)

/-- A multi-channel (3D, height × width × channels) pixel buffer. -/
abbrev Image3 : Type := List (List (List ℤ))

/-- The in-place binarization `mask[mask > 0] = 1` performed at the top of
`apply_mask`: every cell above 0 becomes 1, other cells are untouched. -/
def clampMask (mask : Mask) : Mask :=
  mask.map (fun row => row.map (fun v => if 0 < v then 1 else v))

/-- Embedding of `qpath2.masks.apply_mask` on a 2-dimensional buffer
(`img.ndim == 2` branch: `img *= mask`).  The pair returned is the final
buffer together with the final contents of the caller's mask array — the
binarization `mask[mask > 0] = 1` writes through to it. -/
def apply_mask2 (img : Image2) (mask : Mask) : Image2 × Mask :=
  let m := clampMask mask
  (img.zipWith (fun ri rm => ri.zipWith (fun v b => v * b) rm) m, m)

/-- Embedding of `qpath2.masks.apply_mask` on a 3-dimensional buffer
(per-channel loop `img[:, :, k] *= mask`), again returning the buffer and
the written-through mask. -/
def apply_mask3 (img : Image3) (mask : Mask) : Image3 × Mask :=
  let m := clampMask mask
  (img.zipWith (fun ri rm => ri.zipWith (fun px b => px.map (fun v => v * b)) rm) m, m)

/-- Cell access with default, `l[i][j]` of a list-of-rows value. -/
def cellD {α : Type} (l : List (List α)) (i j : ℕ) (d : α) : α :=
  ((l.getD i []).getD j d)

lemma getD_map {α β : Type} (f : α → β) (l : List α) (i : ℕ) (d : α) (d' : β)
    (hd : d' = f d) : (l.map f).getD i d' = f (l.getD i d) := by
  subst hd
  induction l generalizing i with
  | nil => simp
  | cons a t ih =>
    cases i with
    | zero => rfl
    | succ n => exact ih n

lemma getD_zipWith {α β γ : Type} (f : α → β → γ) (l1 : List α) (l2 : List β)
    (i : ℕ) (d1 : α) (d2 : β) (d' : γ) (hd : d' = f d1 d2)
    (h1 : i < l1.length) (h2 : i < l2.length) :
    (List.zipWith f l1 l2).getD i d' = f (l1.getD i d1) (l2.getD i d2) := by
  subst hd
  induction l1 generalizing l2 i with
  | nil => simp at h1
  | cons a t ih =>
    cases l2 with
    | nil => simp at h2
    | cons b s =>
      cases i with
      | zero => rfl
      | succ n =>
        simp only [List.zipWith_cons_cons, List.getD_cons_succ]
        exact ih s n (by simpa using h1) (by simpa using h2)

lemma cellD_clampMask (mask : Mask) (i j : ℕ) :
    cellD (clampMask mask) i j 0 =
      if 0 < cellD mask i j 0 then 1 else cellD mask i j 0 := by
  unfold cellD clampMask
  rw [getD_map (fun row => row.map (fun v : ℤ => if 0 < v then 1 else v)) mask i [] [] rfl]
  exact getD_map (fun v : ℤ => if 0 < v then 1 else v) (mask.getD i []) j 0 0 rfl

/-- C6: `apply_mask` first clamps every mask value above 0 to 1, then, on
both a 2D buffer and a 3D multi-channel buffer, zeroes every channel value
at positions where the mask is 0 and leaves positions with positive mask
value (1 after clamping) unchanged; the mask it multiplies by is the
clamped one. -/
theorem C6_apply_mask (img2 : Image2) (img3 : Image3) (mask : Mask) (i j : ℕ)
    (hi2 : i < img2.length) (him : i < mask.length)
    (hj2 : j < (img2.getD i []).length) (hjm : j < (mask.getD i []).length)
    (hi3 : i < img3.length) (hj3 : j < (img3.getD i []).length) :
    ((apply_mask2 img2 mask).2 = clampMask mask ∧
      cellD (clampMask mask) i j 0 =
        (if 0 < cellD mask i j 0 then 1 else cellD mask i j 0)) ∧
    (cellD mask i j 0 = 0 →
      cellD (apply_mask2 img2 mask).1 i j 0 = 0 ∧
      ∀ v ∈ cellD (apply_mask3 img3 mask).1 i j [], v = 0) ∧
    (0 < cellD mask i j 0 →
      cellD (apply_mask2 img2 mask).1 i j 0 = cellD img2 i j 0 ∧
      cellD (apply_mask3 img3 mask).1 i j [] = cellD img3 i j []) := by
  have hml : i < (clampMask mask).length := by
    simpa [clampMask] using him
  have hmr : j < ((clampMask mask).getD i []).length := by
    unfold clampMask
    rw [getD_map (fun row => row.map (fun v : ℤ => if 0 < v then 1 else v)) mask i [] [] rfl]
    simpa using hjm
  have hcell2 : cellD (apply_mask2 img2 mask).1 i j 0 =
      cellD img2 i j 0 * cellD (clampMask mask) i j 0 := by
    unfold apply_mask2 cellD
    rw [getD_zipWith
      (fun (ri : List ℤ) (rm : List ℤ) => ri.zipWith (fun v b => v * b) rm)
      img2 (clampMask mask) i [] [] [] rfl hi2 hml]
    exact getD_zipWith (fun v b => v * b) (img2.getD i []) ((clampMask mask).getD i [])
      j 0 0 0 rfl hj2 hmr
  have hcell3 : cellD (apply_mask3 img3 mask).1 i j [] =
      (cellD img3 i j []).map (fun v => v * cellD (clampMask mask) i j 0) := by
    unfold apply_mask3 cellD
    rw [getD_zipWith
      (fun (ri : List (List ℤ)) (rm : List ℤ) =>
        ri.zipWith (fun px b => px.map (fun v => v * b)) rm)
      img3 (clampMask mask) i [] [] [] rfl hi3 hml]
    exact getD_zipWith (fun (px : List ℤ) (b : ℤ) => px.map (fun v => v * b))
      (img3.getD i []) ((clampMask mask).getD i []) j [] 0 [] rfl hj3 hmr
  refine ⟨⟨rfl, cellD_clampMask mask i j⟩, ?_, ?_⟩
  · intro hz
    have hc : cellD (clampMask mask) i j 0 = 0 := by
      rw [cellD_clampMask, hz]
      simp
    constructor
    · rw [hcell2, hc, mul_zero]
    · intro v hv
      rw [hcell3, hc] at hv
      simp only [List.mem_map] at hv
      obtain ⟨w, _, rfl⟩ := hv
      exact mul_zero w
  · intro hp
    have hc : cellD (clampMask mask) i j 0 = 1 := by
      rw [cellD_clampMask, if_pos hp]
    constructor
    · rw [hcell2, hc, mul_one]
    · rw [hcell3, hc]
      simp

/-- Witness for C6: a concrete 2×2 buffer pair and mask. -/
theorem C6_apply_mask_witness :
    (cellD ([[0, 5], [7, 9]] : Mask) 0 1 0 = 0 →
      cellD (apply_mask2 [[2, 3], [4, 6]] [[0, 5], [7, 9]]).1 0 1 0 = 0 ∧
      ∀ v ∈ cellD (apply_mask3 [[[2], [3]], [[4], [6]]] [[0, 5], [7, 9]]).1 0 1 [], v = 0) ∧
    (0 < cellD ([[0, 5], [7, 9]] : Mask) 0 1 0 →
      cellD (apply_mask2 [[2, 3], [4, 6]] [[0, 5], [7, 9]]).1 0 1 0 =
        cellD ([[2, 3], [4, 6]] : Image2) 0 1 0 ∧
      cellD (apply_mask3 [[[2], [3]], [[4], [6]]] [[0, 5], [7, 9]]).1 0 1 [] =
        cellD ([[[2], [3]], [[4], [6]]] : Image3) 0 1 []) :=
  ⟨(C6_apply_mask [[2, 3], [4, 6]] [[[2], [3]], [[4], [6]]] [[0, 5], [7, 9]] 0 1
      (by decide) (by decide) (by decide) (by decide) (by decide) (by decide)).2.1,
    (C6_apply_mask [[2, 3], [4, 6]] [[[2], [3]], [[4], [6]]] [[0, 5], [7, 9]] 0 1
      (by decide) (by decide) (by decide) (by decide) (by decide) (by decide)).2.2⟩

/-- C10: `apply_mask` writes the binarization through to the caller's mask
array — after the call a cell that held a value above 1 holds 1, so the
original non-binary mask contents are not preserved. -/
theorem C10_mask_mutation (img3 : Image3) (mask : Mask) (i j : ℕ)
    (h1 : 1 < cellD mask i j 0) :
    cellD (apply_mask3 img3 mask).2 i j 0 = 1 ∧ (apply_mask3 img3 mask).2 ≠ mask := by
  have h2 : (apply_mask3 img3 mask).2 = clampMask mask := rfl
  have hc : cellD (clampMask mask) i j 0 = 1 := by
    rw [cellD_clampMask, if_pos (by omega)]
  refine ⟨by rw [h2, hc], ?_⟩
  rw [h2]
  intro hcon
  rw [hcon] at hc
  omega

/-- Witness for C10: a mask holding the value 7. -/
theorem C10_mask_mutation_witness :
    cellD (apply_mask3 [[[2]]] [[7]]).2 0 0 0 = 1 ∧ (apply_mask3 [[[2]]] [[7]]).2 ≠ [[7]] :=
  C10_mask_mutation [[[2]]] [[7]] 0 0 (by decide)

/-! ### The annotation clipper (qpath2.annot.operators.poly_annot_inside) -/

/-- Embedding of `qpath2.masks.add_region`: rasterize the polygon against
the mask's shape and set the covered cells to 1, leaving the rest. -/
def add_region (mask : Mask) (poly_line : Poly) : Mask :=
  let pts := masked_points poly_line (mask.length, mask.headI.length)
  mask.mapIdx (fun r row => row.mapIdx (fun c v => if (c, r) ∈ pts then 1 else v))

/-- The per-polygon loop of `poly_annot_inside`: for each named polygon,
first the containment test (returning the short-circuit flag on success),
otherwise the intersection of the two-row array `r = [[x0,y0],[x1,y1]]`
with the polygon — exactly the degenerate operand the source passes — each
resulting component translated by (-x0, -y0) and added to the mask.  The
counter records how many intersection calls were made. -/
def clipLoop (K : GeomKernel) (x0 y0 x1 y1 : ℚ) (r : Poly) :
    List (String × Poly) → Mask → ℕ → Except QErr (Bool × Mask × ℕ)
  | [], mask, count => .ok (false, mask, count)
  | (_, P) :: rest, mask, count => do
    let rip ← rect_inside_polygon K (x0, y0) (x1, y1) P
    if rip then
      .ok (true, mask, count)
    else do
      let intr ← simple_polygon_intersectionK K r P
      let mask' :=
        if 0 < intr.length then
          intr.foldl (fun m q =>
            add_region m (q.map (fun p => (p.1 - x0, p.2 - y0)))) mask
        else mask
      clipLoop K x0 y0 x1 y1 r rest mask' (count + 1)

/-- Embedding of `qpath2.annot.operators.poly_annot_inside`, instrumented
with the number of `simple_polygon_intersection` calls performed: a
successful containment test returns the tile unchanged; otherwise the
accumulated mask is applied, inverted, scaled by the outside value and
added back per channel. -/
def poly_annot_inside (K : GeomKernel) (img : Image3) (roi : ℚ × ℚ × ℚ × ℚ)
    (ann : List (String × Poly)) (outside_value : ℤ) : Except QErr (Image3 × ℕ) := do
  let x0 := roi.1
  let y0 := roi.2.1
  let x1 := roi.2.2.1
  let y1 := roi.2.2.2
  let r : Poly := [(x0, y0), (x1, y1)]
  let mask0 : Mask := List.replicate img.length (List.replicate img.headI.length 0)
  let res ← clipLoop K x0 y0 x1 y1 r ann mask0 0
  match res with
  | (true, _, count) => .ok (img, count)
  | (false, mask, count) =>
    let am := apply_mask3 img mask
    let inv := am.2.map (fun row => row.map (fun b => (1 - b) * outside_value))
    let img2 := am.1.zipWith
      (fun ri rm => ri.zipWith (fun px w => px.map (fun v => v + w)) rm) inv
    .ok (img2, count)

/-- A triangle far away from the C8 ROI (0,0,10,10). -/
def PtriC8 : Poly := [(20, 20), (30, 20), (25, 30)]

/-- A square strictly containing the C8 ROI (0,0,10,10). -/
def PbigC8 : Poly := [(-5, -5), (15, -5), (15, 15), (-5, 15)]

/-- Modelled from the spec: the exact-geometry kernel (the compiled
`compgeom_` bindings, absent from the sources) on the C8 operands.
Convexity and point classification are computed (cross-product and
even-odd crossing tests); intersection follows the spec's size contract —
status -1 when either operand has fewer than 3 vertices (the only case
this scenario reaches), no overlap otherwise; region equality on these
operands coincides with vertex-list equality. -/
def KC8 : GeomKernel where
  isConvex := convexPoly
  pointWrt := fun pts Q => (0, pts.map (fun p => if point_in_polygon Q p then 1 else -1))
  intersect := fun P Q =>
    if P.length < 3 ∨ Q.length < 3 then ⟨-1, [], [], []⟩ else ⟨0, [], [], []⟩
  equality := fun P Q => if P = Q then 1 else 0

/-- C8 (refuted as universally stated): the containing square `PbigC8`
does satisfy `rect_inside_polygon` on the ROI corners, yet with a
non-containing polygon listed before it the clipper aborts with the
size-mismatch error — the source hands the 2-row diagonal `[[x0,y0],
[x1,y1]]` to `simple_polygon_intersection` instead of the 4-corner ROI
polygon.  When the containing polygon is examined first (the spec's
concrete scenario), the tile is returned unchanged with zero intersection
calls. -/
theorem C8_clipper_bug :
    rect_inside_polygon KC8 (0, 0) (10, 10) PbigC8 = .ok true ∧
    poly_annot_inside KC8 [[[5]]] (0, 0, 10, 10) [("a", PtriC8), ("b", PbigC8)] 0 =
      .error .sizeMismatch ∧
    poly_annot_inside KC8 [[[5]]] (0, 0, 10, 10) [("b", PbigC8)] 0 = .ok ([[[5]]], 0) :=
  ⟨by decide, by decide, by decide⟩

/-! ### The sliding-window explorer (qpath2.core.MRISlidingWindow) -/

/-- `np.arange(a, b, s)` over the naturals: `a, a+s, ...` strictly below
`b` (empty when `b ≤ a`; `s ≥ 1` assumed by the callers). -/
def npArange (a b s : ℕ) : List ℕ :=
  (List.range ((b - a + s - 1) / s)).map (fun k => a + k * s)

/-- The state of an `MRISlidingWindow`: its construction parameters
(image shape as (nrows, ncols), window size (w, h), start offset, step)
and the current position index `k`. -/
structure SlidingWindow : Type where
  image_shape : ℕ × ℕ
  w_size : ℕ × ℕ
  start : ℕ × ℕ
  step : ℕ × ℕ
  k : ℕ
  deriving DecidableEq

/-- The precomputed `_top_left_corners`: `np.meshgrid` of the stepped x
and y ranges, flattened row-major and zipped — y outer, x inner. -/
def top_left_corners (image_shape w_size start step : ℕ × ℕ) : List (ℕ × ℕ) :=
  let xs := npArange start.1 (image_shape.2 - w_size.1 + 1) step.1
  let ys := npArange start.2 (image_shape.1 - w_size.2 + 1) step.2
  ys.flatMap (fun y => xs.map (fun x => (x, y)))

/-- The constructor of `MRISlidingWindow`: rejects a window smaller than
2×2 and a window that does not fit the image from the start offset. -/
def mkSlidingWindow (image_shape w_size start step : ℕ × ℕ) :
    Except QErr SlidingWindow :=
  if w_size.1 < 2 ∨ w_size.2 < 2 then .error .valueError
  else if image_shape.2 < start.1 + w_size.1 ∨ image_shape.1 < start.2 + w_size.2 then
    .error .valueError
  else .ok ⟨image_shape, w_size, start, step, 0⟩

/-- `total_steps()`: the number of precomputed corners. -/
def total_steps (sw : SlidingWindow) : ℕ :=
  (top_left_corners sw.image_shape sw.w_size sw.start sw.step).length

/-- The window tuple `(x0, y0, x1, y1)` at position `k`, with `x1`, `y1`
clipped to the image bounds. -/
def windowAt (sw : SlidingWindow) (k : ℕ) : ℕ × ℕ × ℕ × ℕ :=
  let p := (top_left_corners sw.image_shape sw.w_size sw.start sw.step).getD k (0, 0)
  (p.1, p.2, min (p.1 + sw.w_size.1) sw.image_shape.2,
    min (p.2 + sw.w_size.2) sw.image_shape.1)

/-- `here()`: the current window, or the out-of-bounds error when `k` is
outside `[0, total)`. -/
def here (sw : SlidingWindow) : Except QErr (ℕ × ℕ × ℕ × ℕ) :=
  if sw.k < total_steps sw then .ok (windowAt sw sw.k) else .error .outOfBounds

/-- Replace the position index. -/
def setK (sw : SlidingWindow) (k : ℕ) : SlidingWindow :=
  ⟨sw.image_shape, sw.w_size, sw.start, sw.step, k⟩

/-- Outcome of a navigation call: a value, the `StopIteration` exhaustion
signal, or a `qpath2.core.Error` escaping from `here()`. -/
inductive Stepped (α : Type) : Type
  | ok (a : α)
  | exhausted
  | err (e : QErr)
  deriving DecidableEq

/-- `next()`: return `here()` at the current position then advance by one;
`StopIteration` once `k` has reached `total_steps()`. -/
def next (sw : SlidingWindow) : Stepped ((ℕ × ℕ × ℕ × ℕ) × SlidingWindow) :=
  if sw.k < total_steps sw then
    match here sw with
    | .ok w => .ok (w, setK sw (sw.k + 1))
    | .error e => .err e
  else .exhausted

/-- `prev()`: decrement the position then return `here()`;
`StopIteration` when `k` is already 0. -/
def prev (sw : SlidingWindow) : Stepped ((ℕ × ℕ × ℕ × ℕ) × SlidingWindow) :=
  if 1 ≤ sw.k then
    match here (setK sw (sw.k - 1)) with
    | .ok w => .ok (w, setK sw (sw.k - 1))
    | .error e => .err e
  else .exhausted

/-- `reset()`: back to position 0. -/
def reset (sw : SlidingWindow) : SlidingWindow :=
  setK sw 0

lemma length_flatMap_const {α β : Type} (l : List α) (f : α → List β) (n : ℕ)
    (h : ∀ a ∈ l, (f a).length = n) : (l.flatMap f).length = l.length * n := by
  induction l with
  | nil => simp
  | cons a t ih =>
    simp only [List.flatMap_cons, List.length_append, List.length_cons]
    rw [h a (by simp), ih (fun b hb => h b (by simp [hb]))]
    ring

lemma flatMap_getElem? {α β : Type} (l : List α) (f : α → List β) (n i j : ℕ)
    (hf : ∀ a ∈ l, (f a).length = n) (hj : j < l.length) (hi : i < n) :
    (l.flatMap f)[j * n + i]? = (f (l.get ⟨j, hj⟩))[i]? := by
  induction l generalizing j with
  | nil => simp at hj
  | cons a t ih =>
    cases j with
    | zero =>
      simp only [List.flatMap_cons, Nat.zero_mul, Nat.zero_add]
      rw [List.getElem?_append_left]
      · rfl
      · rw [hf a (by simp)]
        exact hi
    | succ m =>
      simp only [List.flatMap_cons]
      have hlen : (f a).length = n := hf a (by simp)
      have hidx : (m + 1) * n + i = (f a).length + (m * n + i) := by
        rw [hlen]
        ring
      rw [hidx, List.getElem?_append_right (by omega)]
      have : (f a).length + (m * n + i) - (f a).length = m * n + i := by omega
      rw [this]
      exact ih m (fun b hb => hf b (by simp [hb])) (by simpa using hj)

lemma npArange_length (a b s : ℕ) : (npArange a b s).length = (b - a + s - 1) / s := by
  simp [npArange]

lemma npArange_getElem? (a b s i : ℕ) (hi : i < (b - a + s - 1) / s) :
    (npArange a b s)[i]? = some (a + i * s) := by
  simp [npArange, List.getElem?_range, hi]

/-- C3 (total-steps formula refuted): an explorer over a 4×5 image with
2×2 window, step (2,1) and start (0,0) is successfully constructed and
enumerates 6 positions, while the claimed formula
ceil((W-w)/sx + 1) * ceil((H-h)/sy + 1) gives 9. -/
theorem C3_total_steps_counterexample :
    mkSlidingWindow (4, 5) (2, 2) (0, 0) (2, 1) =
      .ok ⟨(4, 5), (2, 2), (0, 0), (2, 1), 0⟩ ∧
    (total_steps ⟨(4, 5), (2, 2), (0, 0), (2, 1), 0⟩ : ℤ) = 6 ∧
    (⌈(((5 : ℚ) - 2) / 2 + 1)⌉ * ⌈(((4 : ℚ) - 2) / 1 + 1)⌉ : ℤ) = 9 := by
  refine ⟨by decide, by decide, ?_⟩
  have h1 : (⌈(((5 : ℚ) - 2) / 2 + 1)⌉ : ℤ) = 3 := by
    rw [Int.ceil_eq_iff]
    norm_num
  have h2 : (⌈(((4 : ℚ) - 2) / 1 + 1)⌉ : ℤ) = 3 := by
    rw [Int.ceil_eq_iff]
    norm_num
  rw [h1, h2]
  norm_num

/-- C3 (amended): for window (w,h) ≥ 2×2 fitting a H×W image, steps
sx, sy ≥ 1 and start (0,0), construction succeeds, `total_steps()` equals
(floor((W-w)/sx) + 1) * (floor((H-h)/sy) + 1) — equivalently
ceil((W-w+1)/sx) * ceil((H-h+1)/sy) — and the precomputed positions are
the Cartesian product of the stepped ranges in row-major order (y outer,
x inner): position j*nx + i is (i*sx, j*sy). -/
theorem C3_sliding_window_amended (H W w h sx sy : ℕ)
    (hw : 2 ≤ w) (hh : 2 ≤ h) (hsx : 1 ≤ sx) (hsy : 1 ≤ sy)
    (hfw : w ≤ W) (hfh : h ≤ H) :
    mkSlidingWindow (H, W) (w, h) (0, 0) (sx, sy) =
      .ok ⟨(H, W), (w, h), (0, 0), (sx, sy), 0⟩ ∧
    total_steps ⟨(H, W), (w, h), (0, 0), (sx, sy), 0⟩ =
      ((W - w) / sx + 1) * ((H - h) / sy + 1) ∧
    ∀ i j, i < (W - w) / sx + 1 → j < (H - h) / sy + 1 →
      (top_left_corners (H, W) (w, h) (0, 0) (sx, sy))[j * ((W - w) / sx + 1) + i]? =
        some (i * sx, j * sy) := by
  have hxlen : (npArange 0 (W - w + 1) sx).length = (W - w) / sx + 1 := by
    rw [npArange_length]
    have hnum : W - w + 1 - 0 + sx - 1 = (W - w) + sx := by omega
    rw [hnum, Nat.add_div_right _ (by omega)]
  have hylen : (npArange 0 (H - h + 1) sy).length = (H - h) / sy + 1 := by
    rw [npArange_length]
    have hnum : H - h + 1 - 0 + sy - 1 = (H - h) + sy := by omega
    rw [hnum, Nat.add_div_right _ (by omega)]
  refine ⟨?_, ?_, ?_⟩
  · unfold mkSlidingWindow
    rw [if_neg (by simp; omega), if_neg (by simp; omega)]
  · unfold total_steps top_left_corners
    simp only
    rw [length_flatMap_const _ _ ((W - w) / sx + 1)
      (fun a _ => by simpa using hxlen)]
    rw [show ((npArange 0 (H - h + 1) sy).length) = (H - h) / sy + 1 from hylen]
    ring
  · intro i j hi hj
    unfold top_left_corners
    simp only
    have hj' : j < (npArange 0 (H - h + 1) sy).length := by omega
    rw [flatMap_getElem? _ _ ((W - w) / sx + 1) i j
      (fun a _ => by simpa using hxlen) hj' hi]
    rw [List.getElem?_map]
    have hxs : (npArange 0 (W - w + 1) sx)[i]? = some (0 + i * sx) :=
      npArange_getElem? 0 (W - w + 1) sx i (by
        have hnum : W - w + 1 - 0 + sx - 1 = (W - w) + sx := by omega
        rw [hnum, Nat.add_div_right _ (by omega)]
        exact hi)
    have hys : (npArange 0 (H - h + 1) sy).get ⟨j, hj'⟩ = 0 + j * sy := by
      have h1 : (npArange 0 (H - h + 1) sy)[j]? = some (0 + j * sy) :=
        npArange_getElem? 0 (H - h + 1) sy j (by
          have hnum : H - h + 1 - 0 + sy - 1 = (H - h) + sy := by omega
          rw [hnum, Nat.add_div_right _ (by omega)]
          exact hj)
      have h2 : (npArange 0 (H - h + 1) sy)[j]? =
          some ((npArange 0 (H - h + 1) sy).get ⟨j, hj'⟩) := by
        rw [List.getElem?_eq_getElem hj']
        rfl
      rw [h1] at h2
      exact (Option.some.injEq _ _ ▸ h2.symm)
    rw [hxs, hys]
    simp

/-- Witness for C3 (amended): the 4×5 image with 2×2 window and step
(2,1): 6 positions, position 1*2+1 = 3 being (2, 1). -/
theorem C3_sliding_window_amended_witness :
    mkSlidingWindow (4, 5) (2, 2) (0, 0) (2, 1) =
      .ok ⟨(4, 5), (2, 2), (0, 0), (2, 1), 0⟩ ∧
    total_steps ⟨(4, 5), (2, 2), (0, 0), (2, 1), 0⟩ =
      ((5 - 2) / 2 + 1) * ((4 - 2) / 1 + 1) ∧
    (top_left_corners (4, 5) (2, 2) (0, 0) (2, 1))[1 * ((5 - 2) / 2 + 1) + 1]? =
      some (1 * 2, 1 * 1) :=
  ⟨(C3_sliding_window_amended 4 5 2 2 2 1 (by decide) (by decide) (by decide)
      (by decide) (by decide) (by decide)).1,
    (C3_sliding_window_amended 4 5 2 2 2 1 (by decide) (by decide) (by decide)
      (by decide) (by decide) (by decide)).2.1,
    (C3_sliding_window_amended 4 5 2 2 2 1 (by decide) (by decide) (by decide)
      (by decide) (by decide) (by decide)).2.2 1 1 (by decide) (by decide)⟩

/-- C5: `next()` returns the window at the current position then advances
the position by one, signalling exhaustion (`StopIteration`) once the
position has reached `total_steps()`; `prev()` decrements then returns the
window, signalling exhaustion when the position is already 0; `reset()`
puts the position back to 0; and the exhaustion signal is distinct from
the out-of-bounds error `here()` raises outside `[0, total)`. -/
theorem C5_explorer_protocol (sw : SlidingWindow) (e : QErr) :
    (sw.k < total_steps sw →
      here sw = .ok (windowAt sw sw.k) ∧
      next sw = .ok (windowAt sw sw.k, setK sw (sw.k + 1))) ∧
    (total_steps sw ≤ sw.k →
      next sw = .exhausted ∧ here sw = .error .outOfBounds) ∧
    (1 ≤ sw.k → sw.k ≤ total_steps sw →
      prev sw = .ok (windowAt sw (sw.k - 1), setK sw (sw.k - 1))) ∧
    (sw.k = 0 → prev sw = .exhausted) ∧
    (reset sw).k = 0 ∧
    ((Stepped.exhausted : Stepped ((ℕ × ℕ × ℕ × ℕ) × SlidingWindow)) ≠ .err e) := by
  refine ⟨?_, ?_, ?_, ?_, rfl, by intro hcon; exact Stepped.noConfusion hcon⟩
  · intro hk
    have hhere : here sw = .ok (windowAt sw sw.k) := by
      unfold here
      rw [if_pos hk]
    refine ⟨hhere, ?_⟩
    unfold next
    rw [if_pos hk, hhere]
  · intro hk
    constructor
    · unfold next
      rw [if_neg (by omega)]
    · unfold here
      rw [if_neg (by omega)]
  · intro h1 h2
    have hk : (setK sw (sw.k - 1)).k < total_steps (setK sw (sw.k - 1)) := by
      show sw.k - 1 < total_steps sw
      omega
    have hhere : here (setK sw (sw.k - 1)) = .ok (windowAt sw (sw.k - 1)) := by
      unfold here
      rw [if_pos hk]
      rfl
    unfold prev
    rw [if_pos h1, hhere]
  · intro h0
    unfold prev
    rw [if_neg (by omega)]

/-- Witness for C5: the 4×4 image, 2×2 window, step (2,2) explorer (4
positions) at positions 0, 1 and 4. -/
theorem C5_explorer_protocol_witness :
    next ⟨(4, 4), (2, 2), (0, 0), (2, 2), 0⟩ =
      .ok ((0, 0, 2, 2), ⟨(4, 4), (2, 2), (0, 0), (2, 2), 1⟩) ∧
    next ⟨(4, 4), (2, 2), (0, 0), (2, 2), 4⟩ = .exhausted ∧
    prev ⟨(4, 4), (2, 2), (0, 0), (2, 2), 1⟩ =
      .ok ((0, 0, 2, 2), ⟨(4, 4), (2, 2), (0, 0), (2, 2), 0⟩) ∧
    prev ⟨(4, 4), (2, 2), (0, 0), (2, 2), 0⟩ = .exhausted := by
  refine ⟨?_, ?_, ?_, ?_⟩
  · have h := ((C5_explorer_protocol ⟨(4, 4), (2, 2), (0, 0), (2, 2), 0⟩
      .outOfBounds).1 (by decide)).2
    rw [h]
    decide
  · exact ((C5_explorer_protocol ⟨(4, 4), (2, 2), (0, 0), (2, 2), 4⟩
      .outOfBounds).2.1 (by decide)).1
  · have h := (C5_explorer_protocol ⟨(4, 4), (2, 2), (0, 0), (2, 2), 1⟩
      .outOfBounds).2.2.1 (by decide) (by decide)
    rw [h]
    decide
  · exact (C5_explorer_protocol ⟨(4, 4), (2, 2), (0, 0), (2, 2), 0⟩
      .outOfBounds).2.2.2.1 rfl

/-! ### The coordinate mapper (qpath2.annot.tools.ndpa2xy) -/

/-- Python's `long()` applied to a rational (the embedded double):
truncation toward zero. -/
def pytrunc (q : ℚ) : ℤ :=
  if 0 ≤ q then ⌊q⌋ else ⌈q⌉

/-- The fields of the WSI parameter dictionary that `ndpa2xy` reads. -/
structure WSIParams : Type where
  vendor : String
  level_count : ℕ
  x_offset : ℚ
  y_offset : ℚ
  x_mpp : ℚ
  y_mpp : ℚ
  x_size0 : ℕ
  y_size0 : ℕ
  deriving DecidableEq

/-- One iteration of the `ndpa2xy` loop: subtract the vendor offset,
divide by 1000·mpp, add half the level-0 extent (`x_size/2` is Python 2
floor division of longs), divide by `2**level` and truncate with
`long()`. -/
def ndpa2xy_point (wsi : WSIParams) (level : ℕ) (p : ℚ × ℚ) : ℤ × ℤ :=
  let d : ℚ := 2 ^ level
  let x := (p.1 - wsi.x_offset) / (1000 * wsi.x_mpp)
  let y := (p.2 - wsi.y_offset) / (1000 * wsi.y_mpp)
  (pytrunc ((x + (wsi.x_size0 / 2 : ℕ)) / d),
   pytrunc ((y + (wsi.y_size0 / 2 : ℕ)) / d))

/-- Embedding of `qpath2.annot.tools.ndpa2xy`: the vendor check, the level
check (`level > level_count` rejected), the per-point conversion and the
final negative-coordinate check over the converted array. -/
def ndpa2xy (wsi : WSIParams) (level : ℕ) (pts : List (ℚ × ℚ)) :
    Except QErr (List (ℤ × ℤ)) :=
  if wsi.vendor ≠ "hamamatsu" then .error .vendorMismatch
  else if wsi.level_count < level then .error .levelOutOfBounds
  else
    let xy := pts.map (ndpa2xy_point wsi level)
    if xy.any (fun q => decide (q.1 < 0) || decide (q.2 < 0)) then .error .negCoords
    else .ok xy

/-- The per-axis formula exactly as the spec words it:
`pixel = floor( (physical - offset) / (1000 * mpp) + level0_extent/2 ) / 2^level`,
an exact rational value. -/
def ndpa2xy_spec_point (wsi : WSIParams) (level : ℕ) (p : ℚ × ℚ) : ℚ × ℚ :=
  ((⌊(p.1 - wsi.x_offset) / (1000 * wsi.x_mpp) + (wsi.x_size0 : ℚ) / 2⌋ : ℚ) / 2 ^ level,
   (⌊(p.2 - wsi.y_offset) / (1000 * wsi.y_mpp) + (wsi.y_size0 : ℚ) / 2⌋ : ℚ) / 2 ^ level)

/-- The parameters of the C2 counterexample: hamamatsu, zero offsets,
mpp = 1/1000 (so 1000·mpp = 1) and level-0 extent 6. -/
def wsiC2 : WSIParams :=
  ⟨"hamamatsu", 2, 0, 0, 1 / 1000, 1 / 1000, 6, 6⟩

/-- C2 (formula refuted): at level 1 the code maps the point (0,0) to the
pixel pair (1,1) — truncation happens after the division by 2^level —
while the spec formula floor(physical/(1000 mpp) + extent/2) / 2^level
yields the non-integral 3/2. -/
theorem C2_formula_counterexample :
    ndpa2xy wsiC2 1 [(0, 0)] = .ok [(1, 1)] ∧
    ndpa2xy_spec_point wsiC2 1 (0, 0) = (3 / 2, 3 / 2) ∧
    ((1 : ℚ) ≠ 3 / 2) :=
  ⟨by decide, by decide, by decide⟩

/-- C2 (amended): for vendor hamamatsu and a level within range, each
point is mapped per axis to
trunc( ( (physical - offset)/(1000·mpp) + floor(level0_extent/2) ) / 2^level )
(truncation toward zero); the call returns that list when no mapped
coordinate is negative and raises the negative-coordinate error as soon
as some point maps to a negative coordinate. -/
theorem C2_ndpa2xy_amended (wsi : WSIParams) (level : ℕ) (pts : List (ℚ × ℚ))
    (hv : wsi.vendor = "hamamatsu") (hl : level ≤ wsi.level_count) :
    ((∀ p ∈ pts, 0 ≤ (ndpa2xy_point wsi level p).1 ∧ 0 ≤ (ndpa2xy_point wsi level p).2) →
      ndpa2xy wsi level pts = .ok (pts.map (ndpa2xy_point wsi level))) ∧
    ((∃ p ∈ pts, (ndpa2xy_point wsi level p).1 < 0 ∨ (ndpa2xy_point wsi level p).2 < 0) →
      ndpa2xy wsi level pts = .error .negCoords) := by
  have hvne : ¬ wsi.vendor ≠ "hamamatsu" := by
    rw [hv]
    simp
  have hlne : ¬ wsi.level_count < level := by omega
  constructor
  · intro hpos
    unfold ndpa2xy
    rw [if_neg hvne, if_neg hlne, if_neg ?_]
    simp only [List.any_eq_true, List.mem_map, not_exists]
    rintro q ⟨⟨p, hp, rfl⟩, hq⟩
    have := hpos p hp
    simp only [Bool.or_eq_true, decide_eq_true_eq] at hq
    omega
  · rintro ⟨p, hp, hneg⟩
    unfold ndpa2xy
    rw [if_neg hvne, if_neg hlne, if_pos ?_]
    simp only [List.any_eq_true, List.mem_map]
    refine ⟨ndpa2xy_point wsi level p, ⟨p, hp, rfl⟩, ?_⟩
    simp only [Bool.or_eq_true, decide_eq_true_eq]
    omega

/-- Witness for C2 (amended): the counterexample parameters at level 1 on
the point (0,0) (all-nonnegative branch) and on a far-left point whose
pixel x is negative (error branch). -/
theorem C2_ndpa2xy_amended_witness :
    ndpa2xy wsiC2 1 [(0, 0)] = .ok ([(0, 0)].map (ndpa2xy_point wsiC2 1)) ∧
    ndpa2xy wsiC2 1 [(-100, 0)] = .error .negCoords :=
  ⟨(C2_ndpa2xy_amended wsiC2 1 [(0, 0)] rfl (by decide)).1 (by decide),
    (C2_ndpa2xy_amended wsiC2 1 [(-100, 0)] rfl (by decide)).2
      ⟨(-100, 0), by decide, by decide⟩⟩

/-! ### Annotation objects (qpath2.annot.core) -/

/-- `AnnotationObject.translate`: add the offset vector to every row. -/
def annot_translate (xy : List Pt) (x_off y_off : ℚ) : List Pt :=
  xy.map (fun p => (p.1 + x_off, p.2 + y_off))

/-- `AnnotationObject.scale`: multiply every row by the scale vector. -/
def annot_scale (xy : List Pt) (x_scale y_scale : ℚ) : List Pt :=
  xy.map (fun p => (p.1 * x_scale, p.2 * y_scale))

/-- `AnnotationObject.affine`: apply the 2×3 affine matrix to every row. -/
def annot_affine (xy : List Pt) (m00 m01 m02 m10 m11 m12 : ℚ) : List Pt :=
  xy.map (fun p => (p.1 * m00 + p.2 * m01 + m02, p.1 * m10 + p.2 * m11 + m12))

/-- The closing step of the `Polygon` constructor: if the first row of the
point array differs from the last, the first row is appended. -/
def polygon_mk (xy : List Pt) : List Pt :=
  if xy.head? = xy.getLast? then xy else xy ++ xy.take 1

/-- The closure invariant: first point equals last point. -/
def closedPoly (xy : List Pt) : Prop :=
  xy.head? = xy.getLast?

instance (xy : List Pt) : Decidable (closedPoly xy) := by
  unfold closedPoly
  infer_instance

lemma closedPoly_map (f : Pt → Pt) (xy : List Pt) (h : closedPoly xy) :
    closedPoly (xy.map f) := by
  unfold closedPoly at h ⊢
  rw [List.head?_map, List.getLast?_map, h]

/-- C9: a `Polygon` built from any non-empty point sequence is closed
(first point equals last point), and closure is preserved by the
translate, scale and affine transforms. -/
theorem C9_polygon_closed (pts xy : List Pt)
    (dx dy sx sy m00 m01 m02 m10 m11 m12 : ℚ)
    (hne : pts ≠ []) (hcl : closedPoly xy) :
    closedPoly (polygon_mk pts) ∧
    closedPoly (annot_translate xy dx dy) ∧
    closedPoly (annot_scale xy sx sy) ∧
    closedPoly (annot_affine xy m00 m01 m02 m10 m11 m12) := by
  refine ⟨?_, closedPoly_map _ xy hcl, closedPoly_map _ xy hcl, closedPoly_map _ xy hcl⟩
  unfold polygon_mk
  by_cases h : pts.head? = pts.getLast?
  · rw [if_pos h]
    exact h
  · rw [if_neg h]
    obtain ⟨a, t, rfl⟩ : ∃ a t, pts = a :: t := by
      cases pts with
      | nil => exact absurd rfl hne
      | cons a t => exact ⟨a, t, rfl⟩
    unfold closedPoly
    rw [show (a :: t).take 1 = [a] from rfl, List.getLast?_concat]
    rfl

/-- Witness for C9: an open triangle, a closed contour and concrete
transform parameters. -/
theorem C9_polygon_closed_witness :
    closedPoly (polygon_mk [((0 : ℚ), (0 : ℚ)), (1, 0), (1, 1)]) ∧
    closedPoly (annot_translate [((0 : ℚ), (0 : ℚ)), (1, 0), (0, 0)] 2 3) ∧
    closedPoly (annot_scale [((0 : ℚ), (0 : ℚ)), (1, 0), (0, 0)] 2 3) ∧
    closedPoly (annot_affine [((0 : ℚ), (0 : ℚ)), (1, 0), (0, 0)] 1 2 3 4 5 6) :=
  C9_polygon_closed [(0, 0), (1, 0), (1, 1)] [(0, 0), (1, 0), (0, 0)]
    2 3 2 3 1 2 3 4 5 6 (by decide) (by decide)

end QP
